import Mathlib

/-!
Shallow embedding of the biocompose simulation-adapter and SED-ML
extraction code (src/biocompose and src/sed2), for checking the
natural-language specification against the implementation.

Conventions of the embedding:
* Python dicts that are iterated in insertion order become association
  lists `List (String × _)`; dicts used only for keyed lookup of model
  state become functions `String → ℚ`.
* Python floats become `ℚ` (the claims under study are structural, not
  about rounding).
* Fallible Python code (raise sites) returns `Except PyError _`; each
  `PyError` constructor corresponds to one raise site of the source and
  carries the name the specification's error taxonomy gives that
  condition.
-/

/-- Error conditions raised by the embedded code.  Each constructor maps
to a concrete raise site: `loadError` is the `RuntimeError` in
`TelluriumStep._tellurium_initialize`, `configurationError` is the
`ValueError` in `TelluriumUTCStep.initialize` (the spec taxonomy's
`ConfigurationError`), `steadyStateConvergenceError` is the
`RuntimeError` in `TelluriumSteadyStateStep.update` (the taxonomy's
`SteadyStateConvergenceError`), `noUTCFound` is the `ValueError` in
`extract_first_uniform_time_course` (the taxonomy's `NoUTCFoundError`),
`keyError` is the `KeyError` a missing `"time"` column would raise in
`TelluriumUTCStep.update`. -/
inductive PyError where
  | loadError
  | configurationError
  | steadyStateConvergenceError
  | noUTCFound
  | keyError
deriving DecidableEq, Repr

/-- `str.strip("[]")` of Python: remove every leading and trailing
`[` or `]` character. -/
def isBracketChar (c : Char) : Bool := c = '[' || c = ']'

/-- One-sided strip on the character list. -/
def stripCharsLeft (cs : List Char) : List Char := cs.dropWhile isBracketChar

/-- `name.strip("[]")` from `TelluriumUTCStep.update`. -/
def stripBrackets (s : String) : String :=
  ⟨(stripCharsLeft ((stripCharsLeft s.data).reverse)).reverse⟩

/-- The roadrunner column name of a floating species: ids appear
bracketed, `"[S1]"`. -/
def bracketName (s : String) : String := "[" ++ s ++ "]"

/-- Lookup in the dict `{name.strip("[]"): i for i, name in
enumerate(colnames)}` of `TelluriumUTCStep.update`: the index of the
LAST column whose bracket-stripped name equals `key` (later dict
insertions overwrite earlier ones).  The accumulator `i` is the index
of the first element of `cols` in the full column list. -/
def normLookupAux (cols : List String) (key : String) (i : ℕ) : Option ℕ :=
  match cols with
  | [] => Option.none
  | c :: rest =>
    match normLookupAux rest key (i + 1) with
    | some j => some j
    | Option.none => if stripBrackets c = key then some i else Option.none

/-- `norm_to_index.get(key)` from `TelluriumUTCStep.update`. -/
def normLookup (cols : List String) (key : String) : Option ℕ :=
  normLookupAux cols key 0

/-- The incoming port values of the simulation adapters: the two
override maps, each possibly absent (`inputs.get(...)` returning
`None`). -/
structure PortInputs where
  species_counts : Option (List (String × ℚ))
  species_concentrations : Option (List (String × ℚ))

/-- Python truthiness of an optional dict: `None` and `{}` are falsy. -/
def truthyDict (o : Option (List (String × ℚ))) : Option (List (String × ℚ)) :=
  match o with
  | Option.none => Option.none
  | some l => if l.isEmpty then Option.none else some l

/-- `inputs.get("species_counts") or inputs.get("species_concentrations")
or {}` from `TelluriumStep.set_road_runner_incoming_values`: the first
truthy of the two dicts, else empty. -/
def specData (inputs : PortInputs) : List (String × ℚ) :=
  match truthyDict inputs.species_counts with
  | some l => l
  | Option.none =>
    match truthyDict inputs.species_concentrations with
    | some l => l
    | Option.none => []

/-- A roadrunner named array (`tc.colnames` / the row-major matrix). -/
structure NamedArray where
  colnames : List String
  rows : List (List ℚ)

/-- The RoadRunner engine handle held by a `TelluriumStep`.  `vals` is
the model state queried/updated by `getValue`/`setValue`; `dyn i j` is
the (abstract) trajectory the engine integrates: value of species
number `j` at sample number `i`.  `ssOutcome` is `some c` when
`steadyState()` returns confidence `c` and `Option.none` when it throws;
`concArray` and `jacArray` are what
`getFloatingSpeciesConcentrationsNamedArray()` and `getFullJacobian()`
return after a successful steady-state solve. -/
structure RoadRunner where
  speciesIds : List String
  reactionIds : List String
  vals : String → ℚ
  dyn : ℕ → ℕ → ℚ
  ssOutcome : Option ℚ
  concArray : NamedArray
  jacArray : NamedArray

/-- `rr.setValue(sid, v)`. -/
def rrSetValue (f : String → ℚ) (sid : String) (v : ℚ) : String → ℚ :=
  fun s => if s = sid then v else f s

/-- `TelluriumStep.set_road_runner_incoming_values`: pick the override
source by Python truthiness, then set each entry whose id is in the
cached species index. -/
def setIncoming (rr : RoadRunner) (inputs : PortInputs) : RoadRunner :=
  { rr with vals :=
      ((specData inputs).foldl
        (fun f p => if p.1 ∈ rr.speciesIds then rrSetValue f p.1 p.2 else f)
        rr.vals) }

/-- The uniform grid point `i` of `rr.simulate(0, T, n)`:
`i * T / (n - 1)`. -/
def timePoint (T : ℚ) (n i : ℕ) : ℚ := (i : ℚ) * T / ((n : ℚ) - 1)

/-- Modelled from the spec: the external RoadRunner engine's
`simulate(start, end, n)` (§6 collaborator (b)) samples `n` evenly
spaced points of `[start, end]` inclusive of both ends and returns a
named array whose first column is `"time"` followed by one bracketed
column per floating species.  The species values are the engine's
abstract trajectory `rr.dyn`; the source always calls it with
`start = 0`. -/
def RoadRunner.simulate (rr : RoadRunner) (T : ℚ) (n : ℕ) : NamedArray :=
  { colnames := "time" :: rr.speciesIds.map bracketName,
    rows := (List.range n).map (fun i =>
      timePoint T n i :: (List.range rr.speciesIds.length).map (fun j => rr.dyn i j)) }

/-- The dict `species_cols` of `TelluriumUTCStep.update`: for each
cached species id, its column index in the timecourse when present. -/
def speciesCols (ids cols : List String) : List (String × ℕ) :=
  ids.filterMap (fun sid => (normLookup cols sid).map (fun i => (sid, i)))

/-- One pass of `for sid, idx in species_cols.items():
self.rr.setValue(sid, tc[row, idx])`. -/
def applyRow (f : String → ℚ) (cols : List (String × ℕ)) (row : List ℚ) : String → ℚ :=
  cols.foldl (fun g p => rrSetValue g p.1 (row.getD p.2 0)) f

/-- The canonical tabular result shape (`numeric_result`). -/
structure NumericResult where
  time : List ℚ
  columns : List String
  values : List (List ℚ)

/-- The state of a constructed `TelluriumUTCStep`. -/
structure UTCStep where
  rr : RoadRunner
  time : ℚ
  n_points : ℕ

/-- `TelluriumUTCStep.initialize`: load the model (the engine load,
abstracted to an `Option RoadRunner`; `Option.none` is a failed
`te.loadSBMLModel`), then validate `n_points >= 2`.  Modelled from the
spec: §4.2, constructing a Step runs `initialize` on its config
immediately, so this function is also the construction of the step. -/
def mkTelluriumUTCStep (load : Option RoadRunner) (time : ℚ) (n_points : ℤ) :
    Except PyError UTCStep :=
  match load with
  | Option.none => .error .loadError
  | some rr =>
    if n_points < 2 then .error .configurationError
    else .ok { rr := rr, time := time, n_points := n_points.toNat }

/-- `TelluriumUTCStep.update`. -/
def UTCStep.update (st : UTCStep) (inputs : PortInputs) :
    Except PyError (UTCStep × NumericResult) :=
  let rr1 := setIncoming st.rr inputs
  let tc := rr1.simulate st.time st.n_points
  match normLookup tc.colnames "time" with
  | Option.none => .error .keyError
  | some tIdx =>
    let timeList := tc.rows.map (fun row => row.getD tIdx 0)
    let sCols := speciesCols rr1.speciesIds tc.colnames
    let rr2 := { rr1 with vals := tc.rows.foldl (fun f row => applyRow f sCols row) rr1.vals }
    let lastRow := tc.rows.getD (tc.rows.length - 1) []
    let rr3 := { rr2 with vals := applyRow rr2.vals sCols lastRow }
    .ok ({ st with rr := rr3 },
      { time := timeList,
        columns := (tc.colnames.filter (fun c => c ≠ "time")).map stripBrackets,
        values := tc.rows.map (fun row => row.drop 1) })

/-- A species id is well formed for the engine's column naming when its
bracketed column name strips back to the id itself and is distinct from
the time axis (SBML ids never contain `[`/`]`). -/
def cleanId (sid : String) : Prop :=
  stripBrackets (bracketName sid) = sid ∧ sid ≠ "time"

instance (sid : String) : Decidable (cleanId sid) := by
  unfold cleanId; infer_instance

/-- The nested result of `TelluriumSteadyStateStep.update`. -/
structure SteadyStateResult where
  jacobian : NumericResult
  steady_state : NumericResult

/-- `TelluriumSteadyStateStep.update`: apply overrides through
`set_road_runner_incoming_values`, run `steadyState()` (raising on any
solver failure), then package the steady-state concentration array and
the full Jacobian, each in the `numeric_result` shape with
`time = [0]`. -/
def ssUpdate (rr : RoadRunner) (inputs : PortInputs) :
    Except PyError SteadyStateResult :=
  let rr1 := setIncoming rr inputs
  match rr1.ssOutcome with
  | Option.none => .error .steadyStateConvergenceError
  | some _ =>
    .ok { jacobian := { time := [0], columns := rr1.jacArray.colnames,
                        values := rr1.jacArray.rows },
          steady_state := { time := [0], columns := rr1.concArray.colnames,
                            values := rr1.concArray.rows } }

/-- The COPASI data-model handle held by a `CopasiUTCStep`: the cached
species names and the species concentration state
(`getMetabolite(name)` is `None` exactly when `name` is not among the
model's species). -/
structure CopasiModel where
  speciesNames : List String
  conc : String → ℚ

/-- `_set_initial_concentrations(changes, dm)` from
`src/sed2/processes/copasi.py`: set each named species' initial
concentration, skipping (`continue`) names whose metabolite lookup
returns `None`. -/
def set_initial_concentrations (changes : List (String × ℚ)) (dm : CopasiModel) :
    CopasiModel :=
  { dm with conc :=
      (changes.foldl
        (fun f p => if p.1 ∈ dm.speciesNames then rrSetValue f p.1 p.2 else f)
        dm.conc) }

/-- The override-application part of `CopasiUTCStep.update` (its steps
1): `spec_data = inputs.get('species_counts', {}) or {}`, filter to
species that exist in the model, and apply them when non-empty. -/
def copasiChanges (dm : CopasiModel) (inputs : PortInputs) : List (String × ℚ) :=
  (match inputs.species_counts with
   | some l => l
   | Option.none => []).filter (fun p => p.1 ∈ dm.speciesNames)

/-- `CopasiUTCStep.update` step 1 applied to the model state. -/
def copasiApplyOverrides (dm : CopasiModel) (inputs : PortInputs) : CopasiModel :=
  let changes := copasiChanges dm inputs
  if changes.isEmpty then dm else set_initial_concentrations changes dm

/-- `UniformTimeCourseSpec` from
`src/biocompose/experiments/run_biomodels.py`. -/
structure UniformTimeCourseSpec where
  initial_time : ℚ
  output_start_time : ℚ
  output_end_time : ℚ
  number_of_points : ℤ
deriving DecidableEq, Repr

/-- A SED-ML simulation element as seen through the libsedml binding:
whether it has an `isSedUniformTimeCourse` method and what that method
returns, whether it has all four UTC getters
(`getInitialTime`/`getOutputStartTime`/`getOutputEndTime`/
`getNumberOfPoints`), and the values those getters report. -/
structure SedSimulation where
  hasIsUTC : Bool
  isUTCResult : Bool
  hasGetters : Bool
  initialTime : ℚ
  outputStartTime : ℚ
  outputEndTime : ℚ
  numberOfPoints : ℤ

/-- A SED-ML model element (`Model.source`). -/
structure SedModelRec where
  source : String

/-- A parsed SED-ML document: `getSimulation(i)` may return `None`
(hence `Option`), `getModel(0)` is the head of `models`. -/
structure SedDoc where
  sims : List (Option SedSimulation)
  models : List SedModelRec

/-- The UTC detection of `extract_first_uniform_time_course`: the
capability probe `isSedUniformTimeCourse()` when present, else the
four-getters fallback. -/
def simIsUTC (sim : SedSimulation) : Bool :=
  (sim.hasIsUTC && sim.isUTCResult) || sim.hasGetters

/-- The settings read off a matching simulation. -/
def utcOf (sim : SedSimulation) : UniformTimeCourseSpec :=
  { initial_time := sim.initialTime,
    output_start_time := sim.outputStartTime,
    output_end_time := sim.outputEndTime,
    number_of_points := sim.numberOfPoints }

/-- The scan loop of `extract_first_uniform_time_course` over
`getSimulation(0..n-1)`: skip `None` simulations and non-UTC
simulations, return the first match, raise when none match. -/
def extractFirstUTCAux (sims : List (Option SedSimulation)) :
    Except PyError UniformTimeCourseSpec :=
  match sims with
  | [] => .error .noUTCFound
  | Option.none :: rest => extractFirstUTCAux rest
  | some sim :: rest =>
    if simIsUTC sim then .ok (utcOf sim) else extractFirstUTCAux rest

/-- `extract_first_uniform_time_course(sed_doc)`. -/
def extract_first_uniform_time_course (doc : SedDoc) :
    Except PyError UniformTimeCourseSpec :=
  extractFirstUTCAux doc.sims

/-- Character-level prefix test (first argument is the candidate
prefix), a kernel-computable rendering of Python `str.startswith`. -/
def leadsChars : List Char → List Char → Bool
  | [], _ => true
  | _ :: _, [] => false
  | a :: as, b :: bs => a = b && leadsChars as bs

/-- `s.startswith(p)` of Python. -/
def pyStartsWith (s p : String) : Bool := leadsChars p.data s.data

/-- The URL / identifier-scheme test of
`resolve_sbml_source_from_sedml`. -/
def urlLike (s : String) : Bool :=
  pyStartsWith s "http://" || pyStartsWith s "https://" || pyStartsWith s "urn:" ||
    pyStartsWith s "biomodels:" || pyStartsWith s "BIOMD"

/-- `os.path.abspath(os.path.join(dir, src))` under the assumption that
`dir` is an absolute normalized directory: an absolute `src` wins,
otherwise the two are joined. -/
def absJoin (dir src : String) : String :=
  if pyStartsWith src "/" then src else dir ++ "/" ++ src

/-- `resolve_sbml_source_from_sedml(sed_doc, sedml_dir,
fallback_sbml_path)`.  The filesystem is passed in as the predicate
`fsExists` (`os.path.exists`). -/
def resolve_sbml_source_from_sedml (doc : SedDoc) (sedmlDir fallback : String)
    (fsExists : String → Bool) : String :=
  match doc.models.head? with
  | Option.none => fallback
  | some m =>
    if m.source = "" then fallback
    else if urlLike m.source then fallback
    else if fsExists (absJoin sedmlDir m.source) then absJoin sedmlDir m.source
    else fallback

/-- `BiomodelLoadResult` (the fields the batch loader threads through;
paths as strings). -/
structure BiomodelLoadResult where
  biomodel_id : String
  sbml_path : String
  sedml_path : String
  utc : UniformTimeCourseSpec
deriving DecidableEq, Repr

/-- The per-model loop body of `run_biomodels`: `load_biomodel` may
raise (e.g. `NoUTCFoundError` out of
`extract_first_uniform_time_course`); the loop appends the result and
builds/saves the document.  The source has no exception handling around
the loop body, so a raise propagates and aborts the whole batch. -/
def runBiomodelsLoop (ids : List String)
    (loadOne : String → Except PyError BiomodelLoadResult) :
    Except PyError (List BiomodelLoadResult) :=
  match ids with
  | [] => .ok []
  | i :: rest =>
    match loadOne i with
    | .error e => .error e
    | .ok r =>
      match runBiomodelsLoop rest loadOne with
      | .error e => .error e
      | .ok rs => .ok (r :: rs)

/-- An embedded Python value, as needed by `_iter_entry_files`:
`pyiter` is any iterable that is neither list, tuple, dict nor `None`;
`pyobj` is a non-iterable object (for which `list(entry)` raises
`TypeError`). -/
inductive PyVal where
  | pynone
  | pylist (xs : List PyVal)
  | pytuple (xs : List PyVal)
  | pydict (kvs : List (String × PyVal))
  | pyiter (xs : List PyVal)
  | pyobj (tag : String)

/-- The key scan of `_iter_entry_files` over
`("files", "main_files", "model_files")`: the first key whose value is
a list or tuple. -/
def firstListLike (kvs : List (String × PyVal)) : List String → Option (List PyVal)
  | [] => Option.none
  | k :: ks =>
    match kvs.lookup k with
    | some (.pylist xs) => some xs
    | some (.pytuple xs) => some xs
    | _ => firstListLike kvs ks

/-- `_iter_entry_files(entry)` from
`src/biocompose/experiments/run_biomodels.py`. -/
def iterEntryFiles (entry : PyVal) : List PyVal :=
  match entry with
  | .pynone => []
  | .pylist xs => xs
  | .pytuple xs => xs
  | .pydict kvs =>
    match firstListLike kvs ["files", "main_files", "model_files"] with
    | some xs => xs
    | Option.none => []
  | .pyiter xs => xs
  | .pyobj _ => []

/-! ## Concrete fixtures used by witnesses and counterexamples -/

/-- A small concrete engine handle with two species. -/
def demoRR : RoadRunner :=
  { speciesIds := ["A", "B"],
    reactionIds := ["R1"],
    vals := fun _ => 0,
    dyn := fun i j => (i : ℚ) + (j : ℚ),
    ssOutcome := some 1,
    concArray := { colnames := ["[A]", "[B]"], rows := [[4, 5]] },
    jacArray := { colnames := ["A", "B"], rows := [[1, 0], [0, 1]] } }

/-- `demoRR` with a failing steady-state solve. -/
def demoRRfail : RoadRunner :=
  { demoRR with ssOutcome := Option.none }

/-- Overrides naming `A` in both maps and `B` only in the
concentrations map. -/
def demoInputsBoth : PortInputs :=
  { species_counts := some [("A", 1)],
    species_concentrations := some [("A", 2), ("B", 3)] }

/-- Empty port inputs (both maps absent). -/
def demoInputsNone : PortInputs :=
  { species_counts := Option.none, species_concentrations := Option.none }

/-! ## C10: the entry-shape normalizer -/

/-- C10: `_iter_entry_files` is total over every input shape: `None`,
lists and tuples pass through, dicts yield the first recognized
list-valued key among `files`/`main_files`/`model_files` and otherwise
the empty sequence, other iterables are listed, and non-iterable
objects yield the empty sequence; no shape raises. -/
theorem iter_entry_files_total :
    iterEntryFiles .pynone = [] ∧
    (∀ xs, iterEntryFiles (.pylist xs) = xs) ∧
    (∀ xs, iterEntryFiles (.pytuple xs) = xs) ∧
    (∀ kvs xs, firstListLike kvs ["files", "main_files", "model_files"] = some xs →
      iterEntryFiles (.pydict kvs) = xs) ∧
    (∀ kvs, firstListLike kvs ["files", "main_files", "model_files"] = Option.none →
      iterEntryFiles (.pydict kvs) = []) ∧
    (∀ xs, iterEntryFiles (.pyiter xs) = xs) ∧
    (∀ tag, iterEntryFiles (.pyobj tag) = []) := by
  refine ⟨rfl, fun xs => rfl, fun xs => rfl, ?_, ?_, fun xs => rfl, fun tag => rfl⟩
  · intro kvs xs h
    simp [iterEntryFiles, h]
  · intro kvs h
    simp [iterEntryFiles, h]

/-- Witness for C10 at concrete inputs: a dict holding a list under
`"files"` yields it, a dict with no recognized list-valued key yields
the empty sequence. -/
theorem iter_entry_files_total_witness :
    iterEntryFiles (.pydict [("files", .pylist [.pyobj "m.xml"])]) = [.pyobj "m.xml"] ∧
    iterEntryFiles (.pydict [("other", .pylist []), ("files", .pyobj "x")]) = [] := by
  refine ⟨?_, ?_⟩
  · exact iter_entry_files_total.2.2.2.1 _ _ rfl
  · exact iter_entry_files_total.2.2.2.2.1 _ rfl

/-! ## C6: resolving the SBML source from SED-ML -/

/-- C6: `resolve_sbml_source_from_sedml` returns the source of the
first model resolved against the SED-ML directory exactly when that
source is non-empty, not URL/identifier-like, and the resolved path
exists; in every other case (no model, empty source, URL or identifier
scheme, resolved file missing) it returns the fallback unchanged. -/
theorem resolve_model_source_spec (dir fb : String) (ex : String → Bool) :
    (∀ doc : SedDoc, doc.models = [] →
      resolve_sbml_source_from_sedml doc dir fb ex = fb) ∧
    (∀ doc m rest, doc.models = m :: rest → m.source = "" →
      resolve_sbml_source_from_sedml doc dir fb ex = fb) ∧
    (∀ doc m rest, doc.models = m :: rest → urlLike m.source = true →
      resolve_sbml_source_from_sedml doc dir fb ex = fb) ∧
    (∀ doc m rest, doc.models = m :: rest → m.source ≠ "" →
      urlLike m.source = false → ex (absJoin dir m.source) = true →
      resolve_sbml_source_from_sedml doc dir fb ex = absJoin dir m.source) ∧
    (∀ doc m rest, doc.models = m :: rest → m.source ≠ "" →
      urlLike m.source = false → ex (absJoin dir m.source) = false →
      resolve_sbml_source_from_sedml doc dir fb ex = fb) := by
  refine ⟨?_, ?_, ?_, ?_, ?_⟩
  · intro doc h
    simp [resolve_sbml_source_from_sedml, h]
  · intro doc m rest h hsrc
    simp [resolve_sbml_source_from_sedml, h, hsrc]
  · intro doc m rest h hurl
    by_cases hsrc : m.source = ""
    · simp [resolve_sbml_source_from_sedml, h, hsrc]
    · simp [resolve_sbml_source_from_sedml, h, hsrc, hurl]
  · intro doc m rest h hsrc hurl hex
    simp [resolve_sbml_source_from_sedml, h, hsrc, hurl, hex]
  · intro doc m rest h hsrc hurl hex
    simp [resolve_sbml_source_from_sedml, h, hsrc, hurl, hex]

/-- Witness for C6: a relative existing source resolves; a URL-like
source falls back even though the resolved path would exist. -/
theorem resolve_model_source_spec_witness :
    resolve_sbml_source_from_sedml { sims := [], models := [{ source := "m.xml" }] }
      "/base" "/fb.xml" (fun s => s = "/base/m.xml") = "/base/m.xml" ∧
    resolve_sbml_source_from_sedml { sims := [], models := [{ source := "http://x/m.xml" }] }
      "/base" "/fb.xml" (fun _ => true) = "/fb.xml" := by
  refine ⟨?_, ?_⟩
  · exact (resolve_model_source_spec "/base" "/fb.xml" (fun s => s = "/base/m.xml")).2.2.2.1
      { sims := [], models := [{ source := "m.xml" }] } { source := "m.xml" } []
      rfl (by decide) (by decide) (by decide)
  · exact (resolve_model_source_spec "/base" "/fb.xml" (fun _ => true)).2.2.1
      { sims := [], models := [{ source := "http://x/m.xml" }] }
      { source := "http://x/m.xml" } [] rfl (by decide)

/-! ## C7: extracting the first UniformTimeCourse -/

/-- Whether one scan-loop element is skipped: `None` simulations and
simulations failing the UTC detection. -/
def optNotUTC (o : Option SedSimulation) : Bool :=
  match o with
  | Option.none => true
  | some s => !simIsUTC s

/-- C7: `extract_first_uniform_time_course` returns the settings of the
first simulation matching the UTC capability probe (the
`isSedUniformTimeCourse` method when available, else presence of the
four UTC getters), skipping `None` simulations, and raises
`NoUTCFoundError` when no simulation in the document matches. -/
theorem extract_first_utc_spec :
    (∀ doc : SedDoc, (∀ o ∈ doc.sims, optNotUTC o = true) →
      extract_first_uniform_time_course doc = .error .noUTCFound) ∧
    (∀ doc : SedDoc, ∀ pre sim post, doc.sims = pre ++ some sim :: post →
      (∀ o ∈ pre, optNotUTC o = true) →
      simIsUTC sim = true →
      extract_first_uniform_time_course doc = .ok (utcOf sim)) := by
  have haux1 : ∀ sims : List (Option SedSimulation),
      (∀ o ∈ sims, optNotUTC o = true) →
      extractFirstUTCAux sims = .error .noUTCFound := by
    intro sims
    induction sims with
    | nil => intro _; rfl
    | cons o rest ih =>
      intro h
      have hrest := ih (fun o₂ ho => h o₂ (List.mem_cons_of_mem _ ho))
      match o with
      | Option.none => exact hrest
      | some sim =>
        have hf : simIsUTC sim = false := by
          have := h (some sim) (List.mem_cons_self _ _)
          simpa [optNotUTC] using this
        simpa [extractFirstUTCAux, hf] using hrest
  constructor
  · intro doc h
    exact haux1 doc.sims h
  · intro doc pre sim post hdoc hpre hutc
    show extractFirstUTCAux doc.sims = .ok (utcOf sim)
    rw [hdoc]
    clear hdoc
    induction pre with
    | nil => simp [extractFirstUTCAux, hutc]
    | cons o rest ih =>
      have hrest : ∀ o₂ ∈ rest, optNotUTC o₂ = true :=
        fun o₂ ho => hpre o₂ (List.mem_cons_of_mem _ ho)
      have ihr := ih hrest
      match o with
      | Option.none => exact ihr
      | some s =>
        have hf : simIsUTC s = false := by
          have := hpre (some s) (List.mem_cons_self _ _)
          simpa [optNotUTC] using this
        simpa [extractFirstUTCAux, hf] using ihr

/-- A simulation element that the UTC detection rejects. -/
def demoSimPlain : SedSimulation :=
  { hasIsUTC := false, isUTCResult := false, hasGetters := false,
    initialTime := 0, outputStartTime := 0, outputEndTime := 0,
    numberOfPoints := 0 }

/-- A simulation element recognized by the four-getters fallback. -/
def demoSimUTC : SedSimulation :=
  { hasIsUTC := false, isUTCResult := false, hasGetters := true,
    initialTime := 0, outputStartTime := 0, outputEndTime := 10,
    numberOfPoints := 11 }

/-- Witness for C7: a document whose first simulation lacks both the
probe method and the getters, followed by a `None` slot and one
recognized via the getters fallback, yields the latter's settings. -/
theorem extract_first_utc_spec_witness :
    extract_first_uniform_time_course
      { sims := [some demoSimPlain, Option.none, some demoSimUTC], models := [] } =
      .ok { initial_time := 0, output_start_time := 0, output_end_time := 10,
            number_of_points := 11 } := by
  exact extract_first_utc_spec.2
    { sims := [some demoSimPlain, Option.none, some demoSimUTC], models := [] }
    [some demoSimPlain, Option.none] demoSimUTC [] rfl (by decide) (by decide)

/-! ## C8: the batch loader and per-item failures -/

/-- A loader for which the first biomodel id fails (its SED-ML has no
UniformTimeCourse, so `load_biomodel` raises) and every other id loads
fine. -/
def demoLoad : String → Except PyError BiomodelLoadResult :=
  fun i =>
    if i = "BIOMD-bad" then .error .noUTCFound
    else .ok { biomodel_id := i, sbml_path := "m.xml", sedml_path := "m.sedml",
               utc := { initial_time := 0, output_start_time := 0,
                        output_end_time := 10, number_of_points := 11 } }

/-- C8 (code behavior at the failing input): `run_biomodels` has no
exception handling around `load_biomodel`, so the first failing model
aborts the whole batch — the raise propagates out of the loop and the
second (loadable) identifier is never processed, contradicting the
claimed per-item failure isolation. -/
theorem run_biomodels_aborts_on_first_failure :
    runBiomodelsLoop ["BIOMD-bad", "BIOMD-good"] demoLoad = .error .noUTCFound ∧
    demoLoad "BIOMD-good" =
      .ok { biomodel_id := "BIOMD-good", sbml_path := "m.xml", sedml_path := "m.sedml",
            utc := { initial_time := 0, output_start_time := 0,
                     output_end_time := 10, number_of_points := 11 } } := by
  constructor
  · rfl
  · simp [demoLoad]

/-! ## C3: fail-fast n_points validation -/

/-- C3: constructing a `TelluriumUTCStep` (construction runs
`initialize`, which validates after the model load) with
`n_points < 2` raises the configuration error immediately; with
`n_points >= 2` construction succeeds and no such error is raised. -/
theorem utc_n_points_validation (rr : RoadRunner) (T : ℚ) (n : ℤ) :
    (n < 2 → mkTelluriumUTCStep (some rr) T n = .error .configurationError) ∧
    (2 ≤ n → mkTelluriumUTCStep (some rr) T n =
      .ok { rr := rr, time := T, n_points := n.toNat }) := by
  constructor
  · intro h
    simp [mkTelluriumUTCStep, h]
  · intro h
    simp [mkTelluriumUTCStep, not_lt.mpr h]

/-- Witness for C3: `n_points = 1` is rejected at construction,
`n_points = 3` is accepted. -/
theorem utc_n_points_validation_witness :
    mkTelluriumUTCStep (some demoRR) 1 1 = .error .configurationError ∧
    mkTelluriumUTCStep (some demoRR) 1 3 =
      .ok { rr := demoRR, time := 1, n_points := 3 } := by
  constructor
  · exact (utc_n_points_validation demoRR 1 1).1 (by decide)
  · exact (utc_n_points_validation demoRR 1 3).2 (by decide)

/-! ## C5: steady-state update -/

/-- C5: `TelluriumSteadyStateStep.update` raises the steady-state
convergence error whenever the engine's `steadyState()` call fails
(it never returns a result in that case), and on success returns the
steady-state concentration array and the full Jacobian, each packaged
in the `numeric_result` shape `{time, columns, values}` with
`time = [0]`. -/
theorem steady_state_update_spec (rr : RoadRunner) (inputs : PortInputs) :
    (rr.ssOutcome = Option.none →
      ssUpdate rr inputs = .error .steadyStateConvergenceError) ∧
    (∀ c, rr.ssOutcome = some c →
      ssUpdate rr inputs = .ok
        { jacobian := { time := [0], columns := rr.jacArray.colnames,
                        values := rr.jacArray.rows },
          steady_state := { time := [0], columns := rr.concArray.colnames,
                            values := rr.concArray.rows } }) := by
  have hss : (setIncoming rr inputs).ssOutcome = rr.ssOutcome := rfl
  have hjac : (setIncoming rr inputs).jacArray = rr.jacArray := rfl
  have hconc : (setIncoming rr inputs).concArray = rr.concArray := rfl
  constructor
  · intro h
    simp [ssUpdate, hss, h]
  · intro c h
    simp [ssUpdate, hss, h, hjac, hconc]

/-- Witness for C5: the demo engine converges (packaged result), its
failing variant raises. -/
theorem steady_state_update_spec_witness :
    ssUpdate demoRR demoInputsNone = .ok
      { jacobian := { time := [0], columns := ["A", "B"], values := [[1, 0], [0, 1]] },
        steady_state := { time := [0], columns := ["[A]", "[B]"], values := [[4, 5]] } } ∧
    ssUpdate demoRRfail demoInputsNone = .error .steadyStateConvergenceError := by
  constructor
  · exact (steady_state_update_spec demoRR demoInputsNone).2 1 rfl
  · exact (steady_state_update_spec demoRRfail demoInputsNone).1 rfl

/-! ## C2: precedence between count and concentration overrides -/

/-- Counterexample to C2: with `species_counts = {A: 1}` and
`species_concentrations = {A: 2, B: 3}` on a model holding species
`A`, `B` (both initially 0), the counts value wins for `A`, but the
concentration-only entry for `B` is NOT applied — the whole
concentrations dict is discarded once the counts dict is truthy. -/
theorem counts_precedence_counterexample :
    (setIncoming demoRR demoInputsBoth).vals "A" = 1 ∧
    (setIncoming demoRR demoInputsBoth).vals "B" = 0 ∧
    ¬ (setIncoming demoRR demoInputsBoth).vals "B" = 3 := by
  refine ⟨?_, ?_, ?_⟩ <;> decide

/-- C2 as amended: the override source is chosen wholesale, not merged
per species.  In the tellurium steps (`set_road_runner_incoming_values`,
shared by `TelluriumUTCStep` and `TelluriumSteadyStateStep`) a present
non-empty `species_counts` is applied in its entirety and
`species_concentrations` is ignored completely, entries for species
present only in the concentrations map included; the concentrations map
is applied only when the counts map is absent or empty.
`CopasiUTCStep.update` applies only `species_counts` and never applies
`species_concentrations` at all. -/
theorem override_source_chosen_wholesale (cts conc : List (String × ℚ)) :
    (cts ≠ [] → ∀ o, specData { species_counts := some cts,
                                species_concentrations := o } = cts) ∧
    (∀ o, truthyDict o = Option.none → conc ≠ [] →
      specData { species_counts := o, species_concentrations := some conc } = conc) ∧
    (∀ dm o, copasiChanges dm { species_counts := o, species_concentrations := some conc }
      = copasiChanges dm { species_counts := o, species_concentrations := Option.none }) := by
  refine ⟨?_, ?_, ?_⟩
  · intro h o
    simp [specData, truthyDict, List.isEmpty_iff, h]
  · intro o ho h
    match o with
    | Option.none => simp [specData, truthyDict, List.isEmpty_iff, h]
    | some l =>
      by_cases hl : l.isEmpty
      · simp [specData, truthyDict, hl, List.isEmpty_iff, h]
      · exfalso
        simp [truthyDict, hl] at ho
  · intro dm o
    rfl

/-- Witness for C2's amended statement: a non-empty counts map
`{A: 1}` is the applied source whatever the concentrations map says; a
concentrations map `{B: 3}` is the source when counts is empty; the
copasi changes ignore the concentrations map. -/
theorem override_source_chosen_wholesale_witness :
    specData { species_counts := some [("A", 1)],
               species_concentrations := some [("A", 2), ("B", 3)] } = [("A", 1)] ∧
    specData { species_counts := some [],
               species_concentrations := some [("B", 3)] } = [("B", 3)] ∧
    copasiChanges { speciesNames := ["A", "B"], conc := fun _ => 0 }
        { species_counts := Option.none, species_concentrations := some [("B", 3)] }
      = copasiChanges { speciesNames := ["A", "B"], conc := fun _ => 0 }
        { species_counts := Option.none, species_concentrations := Option.none } := by
  refine ⟨?_, ?_, ?_⟩
  · exact (override_source_chosen_wholesale [("A", 1)] [("A", 2), ("B", 3)]).1
      (by decide) (some [("A", 2), ("B", 3)])
  · exact (override_source_chosen_wholesale [("A", 1)] [("B", 3)]).2.1
      (some []) (by decide) (by decide)
  · exact (override_source_chosen_wholesale [("A", 1)] [("B", 3)]).2.2
      { speciesNames := ["A", "B"], conc := fun _ => 0 } Option.none

/-! ## C4: unknown species in override maps -/

/-- Folding guarded `setValue` calls never touches a key outside the
guard list. -/
theorem foldl_guarded_setValue_preserve (ids : List String)
    (l : List (String × ℚ)) (f : String → ℚ) (s : String) (hs : s ∉ ids) :
    (l.foldl (fun g p => if p.1 ∈ ids then rrSetValue g p.1 p.2 else g) f) s = f s := by
  induction l generalizing f with
  | nil => rfl
  | cons p rest ih =>
    simp only [List.foldl_cons]
    rw [ih]
    by_cases hp : p.1 ∈ ids
    · have hne : s ≠ p.1 := fun h => hs (h ▸ hp)
      simp [hp, rrSetValue, hne]
    · simp [hp]

/-- C4: override entries whose species id is not among the loaded
model's species are skipped in every adapter — the tellurium
`set_road_runner_incoming_values` (shared by `TelluriumUTCStep` and
`TelluriumSteadyStateStep`) and the copasi `_set_initial_concentrations`
/ `CopasiUTCStep.update` path leave every species outside the model
untouched, and the copasi change list only ever names model species;
all of these are total functions of the incoming maps (no raise). -/
theorem unknown_species_skipped (s : String) :
    (∀ rr inputs, s ∉ rr.speciesIds →
      (setIncoming rr inputs).vals s = rr.vals s) ∧
    (∀ changes dm, s ∉ dm.speciesNames →
      (set_initial_concentrations changes dm).conc s = dm.conc s) ∧
    (∀ dm inputs, s ∉ dm.speciesNames →
      (copasiApplyOverrides dm inputs).conc s = dm.conc s) ∧
    (∀ dm inputs p, p ∈ copasiChanges dm inputs → p.1 ∈ dm.speciesNames) := by
  refine ⟨?_, ?_, ?_, ?_⟩
  · intro rr inputs hs
    exact foldl_guarded_setValue_preserve rr.speciesIds (specData inputs) rr.vals s hs
  · intro changes dm hs
    exact foldl_guarded_setValue_preserve dm.speciesNames changes dm.conc s hs
  · intro dm inputs hs
    unfold copasiApplyOverrides
    by_cases h : (copasiChanges dm inputs).isEmpty
    · simp [h]
    · simp only [h, if_false, Bool.false_eq_true]
      exact foldl_guarded_setValue_preserve dm.speciesNames _ dm.conc s hs
  · intro dm inputs p hp
    simpa using (List.mem_filter.mp hp).2

/-- Witness for C4: an override naming the unknown species `Z` leaves
`Z` untouched in both engines, and the copasi change list built from it
names only model species. -/
theorem unknown_species_skipped_witness :
    (setIncoming demoRR { species_counts := some [("Z", 9), ("A", 1)],
                          species_concentrations := Option.none }).vals "Z" =
      demoRR.vals "Z" ∧
    (copasiApplyOverrides { speciesNames := ["A", "B"], conc := fun _ => 0 }
      { species_counts := some [("Z", 9), ("A", 1)],
        species_concentrations := Option.none }).conc "Z" = 0 := by
  constructor
  · exact (unknown_species_skipped "Z").1 demoRR
      { species_counts := some [("Z", 9), ("A", 1)],
        species_concentrations := Option.none } (by decide)
  · exact (unknown_species_skipped "Z").2.2.1
      { speciesNames := ["A", "B"], conc := fun _ => 0 }
      { species_counts := some [("Z", 9), ("A", 1)],
        species_concentrations := Option.none } (by decide)

/-! ## Supporting lemmas for the UTC update (C1, C9) -/

/-- When no column strips to the key, the normalized lookup misses. -/
theorem normLookupAux_eq_none (cols : List String) (key : String)
    (h : ∀ c ∈ cols, stripBrackets c ≠ key) :
    ∀ i, normLookupAux cols key i = Option.none := by
  induction cols with
  | nil => intro i; rfl
  | cons c rest ih =>
    intro i
    have hr := ih (fun d hd => h d (List.mem_cons_of_mem _ hd)) (i + 1)
    have hc : stripBrackets c ≠ key := h c (List.mem_cons_self _ _)
    simp [normLookupAux, hr, hc]

/-- Lookup of a species id over the bracketed columns finds its
position (offset by the accumulator). -/
theorem normLookupAux_map_bracket (ids : List String) (sid : String)
    (hnd : ids.Nodup) (hmem : sid ∈ ids)
    (hcl : ∀ x ∈ ids, stripBrackets (bracketName x) = x) :
    ∀ i, normLookupAux (ids.map bracketName) sid i =
      some (i + List.indexOf sid ids) := by
  induction ids with
  | nil => cases hmem
  | cons a rest ih =>
    intro i
    rcases List.mem_cons.mp hmem with h | h
    · subst h
      have hnot : ∀ c ∈ rest.map bracketName, stripBrackets c ≠ sid := by
        intro c hc
        rcases List.mem_map.mp hc with ⟨x, hx, rfl⟩
        rw [hcl x (List.mem_cons_of_mem _ hx)]
        intro hxx
        exact (List.nodup_cons.mp hnd).1 (hxx ▸ hx)
      have hr := normLookupAux_eq_none _ _ hnot (i + 1)
      have hc : stripBrackets (bracketName sid) = sid :=
        hcl sid (List.mem_cons_self _ _)
      simp [normLookupAux, hr, hc, List.indexOf_cons_self]
    · have hne : a ≠ sid := fun he => (List.nodup_cons.mp hnd).1 (he ▸ h)
      have hr := ih (List.nodup_cons.mp hnd).2 h
        (fun x hx => hcl x (List.mem_cons_of_mem _ hx)) (i + 1)
      simp [normLookupAux, hr, List.indexOf_cons_ne _ hne]
      omega

/-- The time axis resolves to column 0 of the simulated named array. -/
theorem normLookup_time (ids : List String)
    (hcl : ∀ x ∈ ids, stripBrackets (bracketName x) = x ∧ x ≠ "time") :
    normLookup ("time" :: ids.map bracketName) "time" = some 0 := by
  have hnot : ∀ c ∈ ids.map bracketName, stripBrackets c ≠ "time" := by
    intro c hc
    rcases List.mem_map.mp hc with ⟨x, hx, rfl⟩
    rw [(hcl x hx).1]
    exact (hcl x hx).2
  have hr := normLookupAux_eq_none _ _ hnot 1
  have ht : stripBrackets "time" = "time" := by decide
  simp [normLookup, normLookupAux, hr, ht]

/-- A species id resolves to its column (one past its index, because of
the leading time column). -/
theorem normLookup_species (ids : List String) (sid : String) (hnd : ids.Nodup)
    (hmem : sid ∈ ids)
    (hcl : ∀ x ∈ ids, stripBrackets (bracketName x) = x ∧ x ≠ "time") :
    normLookup ("time" :: ids.map bracketName) sid =
      some (List.indexOf sid ids + 1) := by
  have hr := normLookupAux_map_bracket ids sid hnd hmem
    (fun x hx => (hcl x hx).1) 1
  have hstep : normLookup ("time" :: ids.map bracketName) sid =
      match normLookupAux (ids.map bracketName) sid 1 with
      | some j => some j
      | Option.none => if stripBrackets "time" = sid then some 0 else Option.none := rfl
  rw [hstep, hr]
  simp [Nat.add_comm]

/-- When the lookup is total over a list, `speciesCols` is just the
lookup map. -/
theorem speciesCols_eq_map (cols : List String) (g : String → ℕ) :
    ∀ l : List String, (∀ sid ∈ l, normLookup cols sid = some (g sid)) →
      speciesCols l cols = l.map (fun sid => (sid, g sid)) := by
  intro l
  induction l with
  | nil => intro _; rfl
  | cons a rest ih =>
    intro h
    have ha := h a (List.mem_cons_self _ _)
    have hr := ih (fun x hx => h x (List.mem_cons_of_mem _ hx))
    simp only [speciesCols, List.filterMap_cons] at hr ⊢
    simp [ha, hr]

/-- `applyRow` leaves species outside the assignment list untouched. -/
theorem applyRow_preserve (row : List ℚ) (s : String) :
    ∀ (cols : List (String × ℕ)) (f : String → ℚ), s ∉ cols.map Prod.fst →
      applyRow f cols row s = f s := by
  intro cols
  induction cols with
  | nil => intro f _; rfl
  | cons p rest ih =>
    intro f hs
    have hs2 : s ∉ rest.map Prod.fst := fun h => hs (by simp [h])
    have hne : s ≠ p.1 := by
      intro h
      exact hs (by simp [h])
    have hstep : applyRow f (p :: rest) row =
        applyRow (rrSetValue f p.1 (row.getD p.2 0)) rest row := rfl
    rw [hstep, ih _ hs2]
    simp [rrSetValue, hne]

/-- `applyRow` writes each listed species its row entry (keys
distinct). -/
theorem applyRow_assigned (row : List ℚ) (s : String) (idx : ℕ) :
    ∀ (cols : List (String × ℕ)) (f : String → ℚ),
      (s, idx) ∈ cols → (cols.map Prod.fst).Nodup →
      applyRow f cols row s = row.getD idx 0 := by
  intro cols
  induction cols with
  | nil => intro f h _; cases h
  | cons p rest ih =>
    intro f hmem hnd
    have hnd2 : (p.1 :: rest.map Prod.fst).Nodup := by simpa using hnd
    have hstep : applyRow f (p :: rest) row =
        applyRow (rrSetValue f p.1 (row.getD p.2 0)) rest row := rfl
    rcases List.mem_cons.mp hmem with he | hm
    · have hs : s = p.1 := by rw [← he]
      have hkey : s ∉ rest.map Prod.fst := by
        rw [hs]
        exact (List.nodup_cons.mp hnd2).1
      rw [hstep, applyRow_preserve row s rest _ hkey, ← he]
      simp [rrSetValue]
    · rw [hstep]
      exact ih _ hm (List.nodup_cons.mp hnd2).2

/-- `getD` through a mapped range. -/
theorem getD_range_map {α : Type} (g : ℕ → α) (n i : ℕ) (d : α) (h : i < n) :
    ((List.range n).map g).getD i d = g i := by
  rw [List.getD_eq_getElem?_getD, List.getElem?_map, List.getElem?_range h]
  rfl

/-- The first sampled time is 0. -/
theorem timePoint_zero (T : ℚ) (n : ℕ) : timePoint T n 0 = 0 := by
  simp [timePoint]

/-- The last sampled time is the configured duration. -/
theorem timePoint_last (T : ℚ) (n : ℕ) (h : 2 ≤ n) : timePoint T n (n - 1) = T := by
  unfold timePoint
  have h1 : ((n - 1 : ℕ) : ℚ) = (n : ℚ) - 1 := by
    have : (1 : ℕ) ≤ n := le_trans one_le_two h
    push_cast [this]
    ring
  have hd : (n : ℚ) - 1 ≠ 0 := by
    have h2 : (2 : ℚ) ≤ (n : ℚ) := by exact_mod_cast h
    linarith
  rw [h1, mul_comm, mul_div_assoc, div_self hd, mul_one]

/-- The sampled times are strictly increasing for a positive
duration. -/
theorem timePoint_strictMono (T : ℚ) (n : ℕ) (hT : 0 < T) (hn : 2 ≤ n) :
    ∀ i j : ℕ, i < j → timePoint T n i < timePoint T n j := by
  intro i j hij
  unfold timePoint
  have hd : (0 : ℚ) < (n : ℚ) - 1 := by
    have h2 : (2 : ℚ) ≤ (n : ℚ) := by exact_mod_cast hn
    linarith
  have hnum : (i : ℚ) * T < (j : ℚ) * T :=
    mul_lt_mul_of_pos_right (by exact_mod_cast hij) hT
  exact div_lt_div_of_pos_right hnum hd

/-- Dropping the raw `"time"` column and stripping brackets recovers
exactly the species ids. -/
theorem columns_strip_aux (ids : List String)
    (hcl : ∀ x ∈ ids, stripBrackets (bracketName x) = x ∧ x ≠ "time") :
    ((ids.map bracketName).filter (fun c => c ≠ "time")).map stripBrackets = ids := by
  induction ids with
  | nil => rfl
  | cons a rest ih =>
    have ha := hcl a (List.mem_cons_self _ _)
    have hbk : bracketName a ≠ "time" := by
      intro h
      have : stripBrackets (bracketName a) = stripBrackets "time" := by rw [h]
      rw [ha.1] at this
      have ht : stripBrackets "time" = "time" := by decide
      exact ha.2 (this.trans ht)
    have hr := ih (fun x hx => hcl x (List.mem_cons_of_mem _ hx))
    simp only [ne_eq, decide_not] at hr ⊢
    simp [hbk, ha.1, hr]

/-- The `columns` field of the UTC result equals the species ids. -/
theorem columns_strip (ids : List String)
    (hcl : ∀ x ∈ ids, stripBrackets (bracketName x) = x ∧ x ≠ "time") :
    ((("time" :: ids.map bracketName).filter (fun c => c ≠ "time")).map stripBrackets)
      = ids := by
  have hstep : ("time" :: ids.map bracketName).filter (fun c => c ≠ "time")
      = (ids.map bracketName).filter (fun c => c ≠ "time") := by
    simp [List.filter_cons]
  rw [hstep]
  exact columns_strip_aux ids hcl

/-- Core description of a successful `TelluriumUTCStep.update`: the
returned table and the restored engine state, in closed form. -/
theorem utc_update_ok (st : UTCStep) (inputs : PortInputs)
    (hn : 2 ≤ st.n_points)
    (hcl : ∀ x ∈ st.rr.speciesIds, stripBrackets (bracketName x) = x ∧ x ≠ "time") :
    ∃ st2 r, st.update inputs = .ok (st2, r) ∧
      r.time = (List.range st.n_points).map (fun i => timePoint st.time st.n_points i) ∧
      r.columns = st.rr.speciesIds ∧
      r.values = (List.range st.n_points).map
        (fun i => (List.range st.rr.speciesIds.length).map (fun j => st.rr.dyn i j)) ∧
      st2.rr.speciesIds = st.rr.speciesIds ∧
      (st.rr.speciesIds.Nodup → ∀ sid ∈ st.rr.speciesIds,
        st2.rr.vals sid = st.rr.dyn (st.n_points - 1)
          (List.indexOf sid st.rr.speciesIds)) := by
  have hTime : normLookup ("time" :: st.rr.speciesIds.map bracketName) "time"
      = some 0 := normLookup_time _ hcl
  unfold UTCStep.update
  simp only [RoadRunner.simulate, setIncoming]
  rw [hTime]
  refine ⟨_, _, rfl, ?_, ?_, ?_, rfl, ?_⟩
  · simp only [List.map_map]
    rfl
  · exact columns_strip _ hcl
  · simp only [List.map_map]
    rfl
  · intro hnd sid hsid
    have hspec : ∀ x ∈ st.rr.speciesIds,
        normLookup ("time" :: st.rr.speciesIds.map bracketName) x =
          some (List.indexOf x st.rr.speciesIds + 1) :=
      fun x hx => normLookup_species _ x hnd hx hcl
    have hsc : speciesCols st.rr.speciesIds ("time" :: st.rr.speciesIds.map bracketName)
        = st.rr.speciesIds.map (fun x => (x, List.indexOf x st.rr.speciesIds + 1)) := by
      have h0 := speciesCols_eq_map ("time" :: st.rr.speciesIds.map bracketName)
        (fun x => List.indexOf x st.rr.speciesIds + 1) st.rr.speciesIds hspec
      simpa using h0
    rw [hsc]
    have hkeys : ((st.rr.speciesIds.map
        (fun x => (x, List.indexOf x st.rr.speciesIds + 1))).map Prod.fst)
        = st.rr.speciesIds := by
      rw [List.map_map]
      exact List.map_id st.rr.speciesIds
    have hndKeys : (((st.rr.speciesIds.map
        (fun x => (x, List.indexOf x st.rr.speciesIds + 1))).map Prod.fst)).Nodup := by
      rw [hkeys]
      exact hnd
    have hmm : (sid, List.indexOf sid st.rr.speciesIds + 1) ∈
        st.rr.speciesIds.map (fun x => (x, List.indexOf x st.rr.speciesIds + 1)) :=
      List.mem_map.mpr ⟨sid, hsid, rfl⟩
    have happ : ∀ (f : String → ℚ) (row : List ℚ),
        applyRow f (st.rr.speciesIds.map
          (fun x => (x, List.indexOf x st.rr.speciesIds + 1))) row sid
        = row.getD (List.indexOf sid st.rr.speciesIds + 1) 0 :=
      fun f row => applyRow_assigned row sid _ _ f hmm hndKeys
    simp only [happ]
    have hlen : ((List.range st.n_points).map
        (fun i => timePoint st.time st.n_points i ::
          (List.range st.rr.speciesIds.length).map
            (fun j => st.rr.dyn i j))).length = st.n_points := by
      simp
    rw [hlen]
    rw [getD_range_map _ st.n_points (st.n_points - 1) [] (by omega)]
    have hstep : (timePoint st.time st.n_points (st.n_points - 1) ::
        (List.range st.rr.speciesIds.length).map
          (fun j => st.rr.dyn (st.n_points - 1) j)).getD
          (List.indexOf sid st.rr.speciesIds + 1) 0
        = ((List.range st.rr.speciesIds.length).map
            (fun j => st.rr.dyn (st.n_points - 1) j)).getD
            (List.indexOf sid st.rr.speciesIds) 0 := rfl
    rw [hstep]
    exact getD_range_map _ _ _ 0 (List.indexOf_lt_length.mpr hsid)

/-- C1: for a `TelluriumUTCStep` constructed with `n_points = N >= 2`
and (positive) duration `T`, every `update` returns a table whose time
sequence has exactly `N` entries, strictly increasing, starting at 0
and ending at `T`; `columns` excludes the time axis and `values` is
point-major (one row per sampled time point, one entry per column). -/
theorem utc_result_shape (rr : RoadRunner) (T : ℚ) (N : ℤ) (inputs : PortInputs)
    (st : UTCStep) (hN : 2 ≤ N) (hT : 0 < T)
    (hcl : ∀ x ∈ rr.speciesIds, stripBrackets (bracketName x) = x ∧ x ≠ "time")
    (hst : mkTelluriumUTCStep (some rr) T N = .ok st) :
    ∃ st2 r, st.update inputs = .ok (st2, r) ∧
      (r.time.length : ℤ) = N ∧
      r.time.Pairwise (fun a b => a < b) ∧
      r.time.getD 0 0 = 0 ∧
      r.time.getD (r.time.length - 1) 0 = T ∧
      r.columns = rr.speciesIds ∧
      "time" ∉ r.columns ∧
      r.values.length = r.time.length ∧
      (∀ row ∈ r.values, row.length = r.columns.length) := by
  have hmk : mkTelluriumUTCStep (some rr) T N =
      .ok { rr := rr, time := T, n_points := N.toNat } := by
    simp [mkTelluriumUTCStep, not_lt.mpr hN]
  rw [hmk, Except.ok.injEq] at hst
  have hrrEq : st.rr = rr := by rw [← hst]
  have hnp : st.n_points = N.toNat := by rw [← hst]
  have htEq : st.time = T := by rw [← hst]
  have h2 : 2 ≤ st.n_points := by
    rw [hnp]
    omega
  have hclst : ∀ x ∈ st.rr.speciesIds,
      stripBrackets (bracketName x) = x ∧ x ≠ "time" := by
    rw [hrrEq]
    exact hcl
  have h2n : 2 ≤ N.toNat := by omega
  obtain ⟨st2, r, hupd, htime, hcols, hvals, hids, _⟩ :=
    utc_update_ok st inputs h2 hclst
  rw [hnp, htEq] at htime
  rw [hrrEq] at hcols
  rw [hnp, hrrEq] at hvals
  refine ⟨st2, r, hupd, ?_, ?_, ?_, ?_, hcols, ?_, ?_, ?_⟩
  · rw [htime]
    simp only [List.length_map, List.length_range]
    omega
  · rw [htime]
    exact List.Pairwise.map _
      (fun a b hab => timePoint_strictMono T N.toNat hT h2n a b hab)
      (List.pairwise_lt_range _)
  · rw [htime, getD_range_map _ _ 0 0 (by omega)]
    exact timePoint_zero T N.toNat
  · rw [htime]
    have hlen : ((List.range N.toNat).map
        (fun i => timePoint T N.toNat i)).length = N.toNat := by simp
    rw [hlen, getD_range_map _ _ _ 0 (by omega)]
    exact timePoint_last T N.toNat h2n
  · rw [hcols]
    intro h
    exact (hcl "time" h).2 rfl
  · rw [hvals, htime]
    simp
  · intro row hrow
    rw [hvals] at hrow
    rcases List.mem_map.mp hrow with ⟨i, _, rfl⟩
    rw [hcols]
    simp

/-- Witness for C1: the demo model, duration 1, three points. -/
theorem utc_result_shape_witness :
    ∃ st2 r, UTCStep.update { rr := demoRR, time := 1, n_points := 3 } demoInputsNone
        = .ok (st2, r) ∧
      (r.time.length : ℤ) = 3 ∧
      r.time.Pairwise (fun a b => a < b) ∧
      r.time.getD 0 0 = 0 ∧
      r.time.getD (r.time.length - 1) 0 = 1 ∧
      r.columns = demoRR.speciesIds ∧
      "time" ∉ r.columns ∧
      r.values.length = r.time.length ∧
      (∀ row ∈ r.values, row.length = r.columns.length) :=
  utc_result_shape demoRR 1 3 demoInputsNone { rr := demoRR, time := 1, n_points := 3 }
    (by decide) (by decide) (by decide) (by simp [mkTelluriumUTCStep])

/-- C9: after a successful `TelluriumUTCStep.update`, every cached
species' engine value equals that species' entry in the last row of
the returned point-major trajectory (its column being its index in
`columns`), so a subsequent update continues from the final sampled
point. -/
theorem utc_update_restores_last_row (st : UTCStep) (inputs : PortInputs)
    (hn : 2 ≤ st.n_points) (hnd : st.rr.speciesIds.Nodup)
    (hcl : ∀ x ∈ st.rr.speciesIds, stripBrackets (bracketName x) = x ∧ x ≠ "time") :
    ∃ st2 r, st.update inputs = .ok (st2, r) ∧
      r.columns = st.rr.speciesIds ∧
      st2.rr.speciesIds = st.rr.speciesIds ∧
      ∀ sid ∈ st.rr.speciesIds,
        st2.rr.vals sid =
          (r.values.getD (r.values.length - 1) []).getD
            (List.indexOf sid st.rr.speciesIds) 0 := by
  obtain ⟨st2, r, hupd, htime, hcols, hvals, hids, hrestore⟩ :=
    utc_update_ok st inputs hn hcl
  refine ⟨st2, r, hupd, hcols, hids, ?_⟩
  intro sid hsid
  rw [hrestore hnd sid hsid, hvals]
  have hlen : ((List.range st.n_points).map
      (fun i => (List.range st.rr.speciesIds.length).map
        (fun j => st.rr.dyn i j))).length = st.n_points := by simp
  rw [hlen, getD_range_map _ _ _ [] (by omega),
    getD_range_map _ _ _ 0 (List.indexOf_lt_length.mpr hsid)]

/-- Witness for C9: the demo model, duration 1, three points. -/
theorem utc_update_restores_last_row_witness :
    ∃ st2 r, UTCStep.update { rr := demoRR, time := 1, n_points := 3 } demoInputsNone
        = .ok (st2, r) ∧
      r.columns = ({ rr := demoRR, time := 1, n_points := 3 } : UTCStep).rr.speciesIds ∧
      st2.rr.speciesIds = ({ rr := demoRR, time := 1, n_points := 3 } : UTCStep).rr.speciesIds ∧
      ∀ sid ∈ ({ rr := demoRR, time := 1, n_points := 3 } : UTCStep).rr.speciesIds,
        st2.rr.vals sid =
          (r.values.getD (r.values.length - 1) []).getD
            (List.indexOf sid ({ rr := demoRR, time := 1, n_points := 3 } : UTCStep).rr.speciesIds) 0 :=
  utc_update_restores_last_row { rr := demoRR, time := 1, n_points := 3 }
    demoInputsNone (by decide) (by decide) (by decide)
